import Mathlib

/-!
Shallow embedding of the sysd supervisor (package sysd, file sysd.go of the
current revision: Systemd with per-app priority and OnFailure pointer
policies).  Go `error` values become an inductive `GoError`; `time.Duration`
becomes `Int` (nanoseconds); the Go map `map[string]appItem` becomes an
association list of `appItem` keyed by the `name` field; `*OnFailure`
pointers become indices (`Nat`) into an explicit policy heap, so that the
in-place mutation done by `OnFailure.Retry` / `OnFailure.RetryTimeout` and
the pointer comparison done by the status watcher are modelled faithfully.
-/

/-- Go `error` values as used by the package: `context.Canceled`, the two
sentinel registry errors, `errors.New`/`fmt.Errorf` leaves (`mk`), and
`fmt.Errorf("...%w...", err)` wrapping (`wrap`). -/
inductive GoError where
  | canceled : GoError
  | appAlreadyExists : GoError
  | appNotExists : GoError
  | mk : String → GoError
  | wrap : String → GoError → GoError
deriving DecidableEq, Repr

/-- `errors.Is(err, context.Canceled)`: true when the wrap chain ends in
`context.Canceled`. -/
def GoError.isCanceled : GoError → Bool
  | .canceled => true
  | .wrap _ e => e.isCanceled
  | _ => false

/-- One nanosecond-denominated second, Go `time.Second`. -/
def timeSecond : Int := 1000000000

/-- The `OnFailure` struct: `name`, `retry`, `retryTimeout`. -/
structure OnFailure where
  name : String
  retry : Int
  retryTimeout : Int
deriving DecidableEq, Repr

/-- `OnFailure.Equal`: compares only the `name` fields of the two policies. -/
def OnFailure.Equal (o target : OnFailure) : Bool :=
  o.name == target.name

/-- Value pointed to by the global `OnFailureRestart` at package init:
`{name: "restart", retry: 3, retryTimeout: 5 * time.Second}`. -/
def OnFailureRestartVal : OnFailure :=
  ⟨"restart", 3, 5 * timeSecond⟩

/-- Value pointed to by the global `OnFailureIgnore` at package init:
`{name: "ignore"}` (zero values for `retry` and `retryTimeout`). -/
def OnFailureIgnoreVal : OnFailure :=
  ⟨"ignore", 0, 0⟩

/-- Heap of `OnFailure` allocations; a `*OnFailure` is an index into it. -/
def PolicyHeap := List OnFailure

/-- Dereference a policy pointer. -/
def heapGet (h : PolicyHeap) (r : Nat) : OnFailure :=
  h.getD r ⟨"", 0, 0⟩

/-- Store through a policy pointer. -/
def heapSet (h : PolicyHeap) (r : Nat) (v : OnFailure) : PolicyHeap :=
  List.set h r v

/-- The pointer held by the package-level `OnFailureRestart` variable. -/
def restartRef : Nat := 0

/-- The pointer held by the package-level `OnFailureIgnore` variable. -/
def ignoreRef : Nat := 1

/-- The policy heap as package init leaves it: the two global allocations. -/
def policyHeap0 : PolicyHeap := [OnFailureRestartVal, OnFailureIgnoreVal]

/-- `OnFailure.Retry`: `o.retry = retry; return o` — writes the field through
the receiver pointer and returns the same pointer. -/
def OnFailure.Retry (h : PolicyHeap) (r : Nat) (retry : Int) : PolicyHeap × Nat :=
  (heapSet h r { heapGet h r with retry := retry }, r)

/-- `OnFailure.RetryTimeout`: `o.retryTimeout = retryTimeout; return o`. -/
def OnFailure.RetryTimeout (h : PolicyHeap) (r : Nat) (retryTimeout : Int) :
    PolicyHeap × Nat :=
  (heapSet h r { heapGet h r with retryTimeout := retryTimeout }, r)

/-- The registry's `appItem`: the embedded `App` handle is abstracted to an
opaque identifier, `onFailure` is a policy pointer. -/
structure appItem where
  handle : Nat
  name : String
  onFailure : Nat
  priority : Int
deriving DecidableEq, Repr

/-- The `Systemd` struct (the logger field is a pure formatting shim and is
omitted). `apps` is the `map[string]appItem` keyed by the `name` field. -/
structure Systemd where
  apps : List appItem
  defaultOnFailure : Nat
  graceFullShutdownTimeout : Int
  statusCheckInterval : Int
deriving DecidableEq, Repr

/-- `New()`: defaults of 20s shutdown timeout, 5s check interval, and the
global restart policy as default. -/
def Systemd.New : Systemd :=
  ⟨[], restartRef, 20 * timeSecond, 5 * timeSecond⟩

/-- Go map lookup `s.apps[name]`. -/
def lookupApp (apps : List appItem) (n : String) : Option appItem :=
  apps.find? (fun a => a.name == n)

/-- Go map assignment `s.apps[n] = v` for a key already present: replace the
entry stored under that name. -/
def updateApp (apps : List appItem) (n : String) (v : appItem) : List appItem :=
  apps.map (fun a => if a.name == n then v else a)

/-- `Systemd.Add`: reject a duplicate name with `ErrAppAlreadyExists`,
otherwise insert `{App: app, name: app.Name(), onFailure: s.defaultOnFailure,
priority: 0}`. -/
def Systemd.Add (s : Systemd) (appName : String) (handle : Nat) :
    Systemd × Option GoError :=
  match lookupApp s.apps appName with
  | some _ => (s, some .appAlreadyExists)
  | none =>
      ({ s with apps := s.apps ++ [⟨handle, appName, s.defaultOnFailure, 0⟩] },
       none)

/-- `Systemd.SetDefaultOnFailure`. -/
def Systemd.SetDefaultOnFailure (s : Systemd) (onFailure : Nat) : Systemd :=
  { s with defaultOnFailure := onFailure }

/-- `Systemd.SetAppOnFailure`: when the name is present the copied entry's
`onFailure` field is replaced and the entry written back; the function then
falls through to `return ErrAppNotExists` unconditionally (the source has no
`return nil` in the found branch). -/
def Systemd.SetAppOnFailure (s : Systemd) (appName : String) (onFailure : Nat) :
    Systemd × Option GoError :=
  match lookupApp s.apps appName with
  | some app =>
      ({ s with apps := updateApp s.apps appName { app with onFailure := onFailure } },
       some .appNotExists)
  | none => (s, some .appNotExists)

/-- `Systemd.SetAppPriority`: same shape as `SetAppOnFailure`, replacing the
`priority` field; it also returns `ErrAppNotExists` unconditionally. -/
def Systemd.SetAppPriority (s : Systemd) (appName : String) (priority : Int) :
    Systemd × Option GoError :=
  match lookupApp s.apps appName with
  | some app =>
      ({ s with apps := updateApp s.apps appName { app with priority := priority } },
       some .appNotExists)
  | none => (s, some .appNotExists)

/-- Trace of one `startWithRetry` call: how many times `app.Start` was
invoked, how many `time.Sleep(retryTimeout)` calls happened, and the
returned error (`none` = nil). -/
structure RetryTrace where
  attempts : Nat
  sleeps : Nat
  result : Option GoError
deriving DecidableEq, Repr

/-- The `for i := 0; i < retry; i++` loop body of `startWithRetry`.
`starts k` is what `app.Start(ctx, restored)` returns on its `k`-th call
(`none` = nil); `i` is the index of the next attempt, `fuel` the remaining
iterations, `last` the current value of the loop-carried `err` variable
(which the function returns when the loop exhausts). A failed attempt
sleeps for `retryTimeout` and continues; a nil attempt returns nil at once. -/
def retryLoop (starts : Nat → Option GoError) :
    Nat → Nat → Option GoError → RetryTrace
  | _, 0, last => ⟨0, 0, last⟩
  | i, fuel + 1, _ =>
    match starts i with
    | some e =>
        let t := retryLoop starts (i + 1) fuel (some e)
        ⟨t.attempts + 1, t.sleeps + 1, t.result⟩
    | none => ⟨1, 0, none⟩

/-- `startWithRetry(ctx, app, restored)`: run the retry loop
`app.onFailure.retry` times starting from a nil `err`. The Go loop bound is
a signed int, so a non-positive `retry` runs zero iterations. -/
def startWithRetry (pol : OnFailure) (starts : Nat → Option GoError) : RetryTrace :=
  retryLoop starts 0 pol.retry.toNat none

/-- Inner pass of `sortByPriority`: the `for j := i+1 ...` loop with `x`
sitting at position `i`. When `apps[i].priority > apps[j].priority` the two
are swapped, so the old occupant of `i` moves to position `j` and the scan
continues with the new occupant. Returns the final occupant of position `i`
and the final contents of positions `i+1 ...`. -/
def selectPass : appItem → List appItem → appItem × List appItem
  | x, [] => (x, [])
  | x, y :: ys =>
    if x.priority > y.priority then
      let p := selectPass y ys
      (p.1, x :: p.2)
    else
      let p := selectPass x ys
      (p.1, y :: p.2)

/-- Outer `for i := 0; i < len(apps); i++` loop of `sortByPriority`: one
`selectPass` per position. The fuel equals the slice length. -/
def sortPass : Nat → List appItem → List appItem
  | 0, l => l
  | _ + 1, [] => []
  | fuel + 1, x :: xs =>
    let p := selectPass x xs
    p.1 :: sortPass fuel p.2

/-- `sortByPriority(apps)`: in-place double-loop exchange sort, ascending by
`priority`. -/
def sortByPriority (l : List appItem) : List appItem :=
  sortPass l.length l

/-- The ordered start list `Systemd.Start` builds: snapshot the registry
entries into a slice and sort it by priority. -/
def startList (s : Systemd) : List appItem :=
  sortByPriority s.apps

/-- One wake-up of the dispatch loop in `Systemd.Start`: either the
governing context is done, or an error value arrives on the shared channel. -/
inductive StartEvent where
  | ctxDone : StartEvent
  | taskErr : GoError → StartEvent
deriving DecidableEq, Repr

/-- The `for { select { ... } }` dispatch loop of `Systemd.Start`, run over
the sequence of wake-ups it observes. `none` means the loop is still
waiting after consuming every event; `some (w, r)` means `Start` returned
`r` (`none` = nil), with `w = true` exactly when `WaitForAppsStop` ran
first. On `ctx.Done()` it waits for shutdown and returns nil; an error that
satisfies `errors.Is(err, context.Canceled)` is dropped and the loop
continues; any other error is returned immediately. -/
def dispatchLoop : List StartEvent → Option (Bool × Option GoError)
  | [] => none
  | .ctxDone :: _ => some (true, none)
  | .taskErr e :: rest =>
    if e.isCanceled then dispatchLoop rest else some (false, some e)

/-- Result of the `for _, app := range s.apps` body of one watcher tick:
the registry afterwards, the net change the tick applied to the wait-group
counter (`wg.Add(1)` per restart spawn, `wg.Add(-1)` per ignore removal),
the names restarted with `restored = true`, and the names deleted by the
Ignore branch. -/
structure TickResult where
  apps : List appItem
  wgDelta : Int
  restarted : List String
  removed : List String
deriving DecidableEq, Repr

/-- One tick of `watchForStatus`: probe every registered app; on a probe
failure switch on the policy pointer — `OnFailureRestart` spawns the app
again (`wg.Add(1)` inside `startApp`), `OnFailureIgnore` deletes the entry
and does `wg.Add(-1)`, any other pointer does nothing. `probe n` is what
`app.Status(ctx)` returns for the app named `n` during this tick. -/
def runTick (probe : String → Option GoError) : List appItem → TickResult
  | [] => ⟨[], 0, [], []⟩
  | app :: rest =>
    let t := runTick probe rest
    match probe app.name with
    | none => ⟨app :: t.apps, t.wgDelta, t.restarted, t.removed⟩
    | some _ =>
      if app.onFailure = restartRef then
        ⟨app :: t.apps, t.wgDelta + 1, app.name :: t.restarted, t.removed⟩
      else if app.onFailure = ignoreRef then
        ⟨t.apps, t.wgDelta - 1, t.restarted, app.name :: t.removed⟩
      else
        ⟨app :: t.apps, t.wgDelta, t.restarted, t.removed⟩

/-- State carried across iterations of the `watchForStatus` select loop:
the registry, the accumulated wait-group delta, and how many times the
`ctx.Done()` branch has sent `ctx.Err()` on the shared channel. -/
structure WatchState where
  apps : List appItem
  wgDelta : Int
  cancelSends : Nat
deriving DecidableEq, Repr

/-- One select wake-up inside `watchForStatus`: the done channel fires, or
the ticker fires with the given probe outcomes. -/
inductive WatchSignal where
  | ctxDone : WatchSignal
  | tick : (String → Option GoError) → WatchSignal

/-- One iteration of the `watchForStatus` select loop. The `ctx.Done()`
case sends `ctx.Err()` and falls through to the next iteration — the source
has no `return` there, so the loop keeps running. -/
def watchStep (st : WatchState) : WatchSignal → WatchState
  | .ctxDone => { st with cancelSends := st.cancelSends + 1 }
  | .tick probe =>
    let t := runTick probe st.apps
    { apps := t.apps, wgDelta := st.wgDelta + t.wgDelta,
      cancelSends := st.cancelSends }

/-- Run the `watchForStatus` loop over a sequence of select wake-ups. -/
def watchRun (st : WatchState) : List WatchSignal → WatchState
  | [] => st
  | sig :: rest => watchRun (watchStep st sig) rest

/-- Whether the app named `x` gets probed at some point while the watch
loop consumes the given wake-ups: a tick probes exactly the apps registered
when it fires. -/
def probedInRun (st : WatchState) : List WatchSignal → String → Bool
  | [], _ => false
  | sig :: rest, x =>
    (match sig with
     | .ctxDone => false
     | .tick _ => (st.apps.map appItem.name).contains x)
    || probedInRun (watchStep st sig) rest x

/-- C10: `OnFailure.Equal` returns true exactly when the two policies' kind
names are equal, ignoring the retry count and retry backoff fields; in
particular a restart policy with any tuned parameters compares equal to the
default restart policy. -/
theorem c10_equal_compares_kind_names_only :
    (∀ a b : OnFailure, OnFailure.Equal a b = true ↔ a.name = b.name) ∧
    (∀ r t : Int, OnFailure.Equal ⟨"restart", r, t⟩ OnFailureRestartVal = true) := by
  constructor
  · intro a b
    simp [OnFailure.Equal]
  · intro r t
    simp [OnFailure.Equal, OnFailureRestartVal]

/-- C8: `Add` on a name already present fails with `ErrAppAlreadyExists` and
leaves the registry — in particular its entry count — unchanged; `Add` on a
fresh name succeeds and inserts an entry carrying the current default
failure policy and priority 0. -/
theorem c8_add_duplicate_fails_fresh_inserts (s : Systemd) (n : String) (hd : Nat) :
    (∀ a, lookupApp s.apps n = some a →
      Systemd.Add s n hd = (s, some GoError.appAlreadyExists)) ∧
    (lookupApp s.apps n = none →
      Systemd.Add s n hd =
        ({ s with apps := s.apps ++ [⟨hd, n, s.defaultOnFailure, 0⟩] }, none)) := by
  constructor
  · intro a ha
    simp [Systemd.Add, ha]
  · intro ha
    simp [Systemd.Add, ha]

/-- C8 witness: a concrete registry holding "a"; adding "a" again fails and
changes nothing, adding "b" appends the default-policy, priority-0 entry. -/
theorem c8_add_witness :
    Systemd.Add ⟨[⟨5, "a", restartRef, 0⟩], restartRef, 0, 0⟩ "a" 7 =
      (⟨[⟨5, "a", restartRef, 0⟩], restartRef, 0, 0⟩, some GoError.appAlreadyExists) ∧
    Systemd.Add ⟨[⟨5, "a", restartRef, 0⟩], restartRef, 0, 0⟩ "b" 7 =
      (⟨[⟨5, "a", restartRef, 0⟩, ⟨7, "b", restartRef, 0⟩], restartRef, 0, 0⟩, none) := by
  constructor
  · exact (c8_add_duplicate_fails_fresh_inserts
      ⟨[⟨5, "a", restartRef, 0⟩], restartRef, 0, 0⟩ "a" 7).1
      ⟨5, "a", restartRef, 0⟩ (by decide)
  · exact (c8_add_duplicate_fails_fresh_inserts
      ⟨[⟨5, "a", restartRef, 0⟩], restartRef, 0, 0⟩ "b" 7).2 (by decide)

/-- C3: evaluation of the two setters at a registry that does contain the
targeted app. The targeted field is replaced correctly, but both calls
still return `ErrAppNotExists` — the source lacks a `return nil` in the
found branch, so the claim's "does not return an error" is violated; the
repository's own example program panics on exactly this call sequence. -/
theorem c3_setters_return_not_exists_on_existing_app :
    Systemd.SetAppOnFailure ⟨[⟨1, "a", restartRef, 0⟩], restartRef, 0, 0⟩ "a" ignoreRef =
      (⟨[⟨1, "a", ignoreRef, 0⟩], restartRef, 0, 0⟩, some GoError.appNotExists) ∧
    Systemd.SetAppPriority ⟨[⟨1, "a", restartRef, 0⟩], restartRef, 0, 0⟩ "a" 9 =
      (⟨[⟨1, "a", restartRef, 9⟩], restartRef, 0, 0⟩, some GoError.appNotExists) := by
  constructor
  · rfl
  · rfl

/-- C5 counterexample: the global Ignore policy has `retry = 0`, so the
retry loop body never runs — zero calls to the app's `Start`, zero sleeps,
and a nil result even though every attempt would have failed. The claim's
"single attempt returning that attempt's result" is false here: it would
require one attempt returning the attempt's error. -/
theorem c5_counterexample_ignore_zero_attempts :
    startWithRetry OnFailureIgnoreVal (fun _ => some (GoError.mk "boom")) =
      ⟨0, 0, none⟩ ∧
    (startWithRetry OnFailureIgnoreVal (fun _ => some (GoError.mk "boom"))).attempts ≠ 1 ∧
    (startWithRetry OnFailureIgnoreVal (fun _ => some (GoError.mk "boom"))).result ≠
      some (GoError.mk "boom") := by
  refine ⟨rfl, by decide, by decide⟩

/-- C5 amended: for every app whose failure policy is of kind Ignore (its
`retry` field is the zero value, and generally any non-positive retry
count), the retrying start routine makes no attempt at all to call the
app's `Start`, performs no backoff sleep, and returns nil. -/
theorem c5_ignore_policy_zero_attempts (pol : OnFailure)
    (starts : Nat → Option GoError) (hp : pol.retry ≤ 0) :
    startWithRetry pol starts = ⟨0, 0, none⟩ := by
  unfold startWithRetry
  rw [Int.toNat_of_nonpos hp]
  rfl

/-- C5 witness: the amended theorem applied to the global Ignore policy and
an always-failing app. -/
theorem c5_ignore_witness :
    startWithRetry OnFailureIgnoreVal (fun _ => some (GoError.mk "down")) =
      ⟨0, 0, none⟩ :=
  c5_ignore_policy_zero_attempts OnFailureIgnoreVal
    (fun _ => some (GoError.mk "down")) (by decide)

/-- C9 counterexample: `OnFailure.Retry` on the global restart policy edits
the policy's retry field in place — the same pointer, dereferenced after
the call, yields a different value, so every registry entry holding that
pointer observes the change. This refutes "no operation of the system edits
a policy's retryCount or retryBackoff fields in place". -/
theorem c9_counterexample_retry_edits_in_place :
    (OnFailure.Retry policyHeap0 restartRef 10).2 = restartRef ∧
    heapGet (OnFailure.Retry policyHeap0 restartRef 10).1 restartRef ≠
      heapGet policyHeap0 restartRef ∧
    (heapGet (OnFailure.Retry policyHeap0 restartRef 10).1 restartRef).retry = 10 := by
  refine ⟨rfl, by decide, rfl⟩

/-- C9 amended: `OnFailure.Retry` and `OnFailure.RetryTimeout` edit the
referenced policy's field in place and return the very same pointer — so
the change is observed through every entry sharing that pointer — while
leaving every other policy allocation untouched; only entry reconfiguration
(`SetAppOnFailure`) swaps an entry's policy pointer wholesale. -/
theorem c9_retry_mutates_shared_policy (h : PolicyHeap) (r : Nat) (n t : Int)
    (hr : r < List.length h) :
    (OnFailure.Retry h r n).2 = r ∧
    heapGet (OnFailure.Retry h r n).1 r = { heapGet h r with retry := n } ∧
    (∀ r2, r2 ≠ r → heapGet (OnFailure.Retry h r n).1 r2 = heapGet h r2) ∧
    (OnFailure.RetryTimeout h r t).2 = r ∧
    heapGet (OnFailure.RetryTimeout h r t).1 r =
      { heapGet h r with retryTimeout := t } ∧
    (∀ r2, r2 ≠ r → heapGet (OnFailure.RetryTimeout h r t).1 r2 = heapGet h r2) ∧
    (∀ (s : Systemd) (nm : String) (app : appItem) (pr : Nat),
      lookupApp s.apps nm = some app →
      (Systemd.SetAppOnFailure s nm pr).1.apps =
        updateApp s.apps nm { app with onFailure := pr }) := by
  refine ⟨rfl, ?_, ?_, rfl, ?_, ?_, ?_⟩
  · simp [OnFailure.Retry, heapGet, heapSet, List.getD, List.getElem?_set_self, hr]
  · intro r2 hne
    simp [OnFailure.Retry, heapGet, heapSet, List.getD,
      List.getElem?_set_ne (Ne.symm hne)]
  · simp [OnFailure.RetryTimeout, heapGet, heapSet, List.getD,
      List.getElem?_set_self, hr]
  · intro r2 hne
    simp [OnFailure.RetryTimeout, heapGet, heapSet, List.getD,
      List.getElem?_set_ne (Ne.symm hne)]
  · intro s nm app pr hl
    simp [Systemd.SetAppOnFailure, hl]

/-- C9 witness: the amended theorem applied to the initial policy heap and
the global restart pointer, together with a concrete one-entry registry for
the pointer-swap conjunct. -/
theorem c9_retry_mutates_witness :
    heapGet (OnFailure.Retry policyHeap0 restartRef 10).1 restartRef =
      { heapGet policyHeap0 restartRef with retry := 10 } ∧
    heapGet (OnFailure.Retry policyHeap0 restartRef 10).1 ignoreRef =
      heapGet policyHeap0 ignoreRef ∧
    (Systemd.SetAppOnFailure ⟨[⟨1, "a", restartRef, 0⟩], restartRef, 0, 0⟩
        "a" ignoreRef).1.apps =
      updateApp [⟨1, "a", restartRef, 0⟩] "a" ⟨1, "a", ignoreRef, 0⟩ := by
  have h9 := c9_retry_mutates_shared_policy policyHeap0 restartRef 10 7 (by decide)
  refine ⟨h9.2.1, h9.2.2.1 ignoreRef (by decide), ?_⟩
  exact h9.2.2.2.2.2.2 ⟨[⟨1, "a", restartRef, 0⟩], restartRef, 0, 0⟩ "a"
    ⟨1, "a", restartRef, 0⟩ ignoreRef (by decide)

/-- C4: evaluation of the watch loop at the failing input — the governing
context is canceled and the loop runs two select iterations, both taking
the `ctx.Done()` branch. The source sends `ctx.Err()` and falls through
without returning, so each iteration sends again: one iteration has already
sent once, two iterations have sent twice, contradicting "exactly once per
run of the watch loop". -/
theorem c4_canceled_context_sends_repeatedly :
    (watchRun ⟨[], 0, 0⟩ [WatchSignal.ctxDone]).cancelSends = 1 ∧
    (watchRun ⟨[], 0, 0⟩ [WatchSignal.ctxDone, WatchSignal.ctxDone]).cancelSends = 2 := by
  constructor
  · rfl
  · rfl

/-- The retry loop never makes more attempts than it has iterations. -/
theorem retryLoop_attempts_le (starts : Nat → Option GoError) :
    ∀ fuel i last, (retryLoop starts i fuel last).attempts ≤ fuel := by
  intro fuel
  induction fuel with
  | zero =>
    intro i last
    simp [retryLoop]
  | succ n ih =>
    intro i last
    cases hs : starts i with
    | some e =>
      simp only [retryLoop, hs]
      exact Nat.succ_le_succ (ih (i + 1) (some e))
    | none =>
      simp [retryLoop, hs]

/-- One failing iteration of the retry loop: sleep, carry the error, and
continue with the rest of the budget. -/
theorem retryLoop_step_fail (starts : Nat → Option GoError) (i fuel : Nat)
    (last : Option GoError) (e : GoError) (hs : starts i = some e) :
    retryLoop starts i (fuel + 1) last =
      ⟨(retryLoop starts (i + 1) fuel (some e)).attempts + 1,
       (retryLoop starts (i + 1) fuel (some e)).sleeps + 1,
       (retryLoop starts (i + 1) fuel (some e)).result⟩ := by
  simp [retryLoop, hs]

/-- If attempt `i + k` is the first to succeed and it is inside the budget,
the loop stops right there: `k + 1` attempts, one sleep after each of the
`k` failures, nil result. -/
theorem retryLoop_first_success (starts : Nat → Option GoError) :
    ∀ fuel k i last, k < fuel → starts (i + k) = none →
    (∀ j, j < k → starts (i + j) ≠ none) →
    retryLoop starts i fuel last = ⟨k + 1, k, none⟩ := by
  intro fuel
  induction fuel with
  | zero =>
    intro k i last hk
    exact absurd hk (Nat.not_lt_zero k)
  | succ n ih =>
    intro k i last hk hsucc hfail
    cases k with
    | zero =>
      have h0 : starts i = none := by simpa using hsucc
      simp [retryLoop, h0]
    | succ m =>
      have h0 : starts i ≠ none := by simpa using hfail 0 (Nat.succ_pos m)
      cases hs : starts i with
      | none => exact absurd hs h0
      | some e =>
        have hsucc2 : starts (i + 1 + m) = none := by
          have he : i + 1 + m = i + (m + 1) := by omega
          rw [he]
          exact hsucc
        have hfail2 : ∀ j, j < m → starts (i + 1 + j) ≠ none := by
          intro j hj
          have he : i + 1 + j = i + (j + 1) := by omega
          rw [he]
          exact hfail (j + 1) (Nat.succ_lt_succ hj)
        have hrec := ih m (i + 1) (some e) (Nat.lt_of_succ_lt_succ hk) hsucc2 hfail2
        simp [retryLoop, hs, hrec]

/-- If every attempt in the budget fails, the loop runs the whole budget:
`n + 1` attempts, a sleep after each failure, and the last error returned. -/
theorem retryLoop_all_fail (starts : Nat → Option GoError) :
    ∀ n i last, (∀ j, j ≤ n → starts (i + j) ≠ none) →
    retryLoop starts i (n + 1) last = ⟨n + 1, n + 1, starts (i + n)⟩ := by
  intro n
  induction n with
  | zero =>
    intro i last hfail
    have h0 : starts i ≠ none := by simpa using hfail 0 (Nat.le_refl 0)
    cases hs : starts i with
    | none => exact absurd hs h0
    | some e => simp [retryLoop, hs]
  | succ m ih =>
    intro i last hfail
    have h0 : starts i ≠ none := by simpa using hfail 0 (Nat.zero_le _)
    cases hs : starts i with
    | none => exact absurd hs h0
    | some e =>
      have hfail2 : ∀ j, j ≤ m → starts (i + 1 + j) ≠ none := by
        intro j hj
        have he : i + 1 + j = i + (j + 1) := by omega
        rw [he]
        exact hfail (j + 1) (Nat.succ_le_succ hj)
      have hrec := ih (i + 1) (some e) hfail2
      have he : i + 1 + m = i + (m + 1) := by omega
      rw [he] at hrec
      rw [retryLoop_step_fail starts i (m + 1) last e hs, hrec]

/-- C2: for a Restart policy with `retryCount = N ≥ 1`, `startWithRetry`
calls the app's `Start` at most `N` times; it returns nil immediately after
the first successful attempt (consuming no remaining retries, having slept
once after each of the preceding failures, i.e. between attempts); and if
all `N` attempts fail it returns the last attempt's error after exactly `N`
attempts, with a backoff sleep after every failed attempt. -/
theorem c2_restart_retry_contract (pol : OnFailure) (N : Nat)
    (starts : Nat → Option GoError) (hname : pol.name = "restart")
    (hpol : pol.retry = (N : Int)) (hN : 1 ≤ N) :
    ((startWithRetry pol starts).attempts ≤ N) ∧
    (∀ k, k < N → starts k = none → (∀ j, j < k → starts j ≠ none) →
      startWithRetry pol starts = ⟨k + 1, k, none⟩) ∧
    ((∀ j, j < N → starts j ≠ none) →
      startWithRetry pol starts = ⟨N, N, starts (N - 1)⟩) := by
  have htn : pol.retry.toNat = N := by
    rw [hpol]
    omega
  unfold startWithRetry
  rw [htn]
  refine ⟨retryLoop_attempts_le starts N 0 none, ?_, ?_⟩
  · intro k hk hs hf
    have hs0 : starts (0 + k) = none := by simpa using hs
    have hf0 : ∀ j, j < k → starts (0 + j) ≠ none := by
      intro j hj
      simpa using hf j hj
    exact retryLoop_first_success starts N k 0 none hk hs0 hf0
  · intro hf
    obtain ⟨m, rfl⟩ : ∃ m, N = m + 1 := ⟨N - 1, by omega⟩
    have hf0 : ∀ j, j ≤ m → starts (0 + j) ≠ none := by
      intro j hj
      simpa using hf j (by omega)
    have := retryLoop_all_fail starts m 0 none hf0
    simpa using this

/-- C2 witness: a two-retry restart policy; an app that fails once then
succeeds stops after its second attempt with one backoff sleep and a nil
result, and an app that always fails exhausts both attempts, sleeps twice,
and returns the last error. -/
theorem c2_restart_retry_witness :
    startWithRetry ⟨"restart", 2, 5⟩
        (fun k => if k = 0 then some (GoError.mk "e0") else none) =
      ⟨2, 1, none⟩ ∧
    startWithRetry ⟨"restart", 2, 5⟩ (fun _ => some (GoError.mk "always")) =
      ⟨2, 2, some (GoError.mk "always")⟩ := by
  constructor
  · exact (c2_restart_retry_contract ⟨"restart", 2, 5⟩ 2
      (fun k => if k = 0 then some (GoError.mk "e0") else none)
      rfl rfl (by decide)).2.1 1 (by decide) (by decide) (by decide)
  · exact (c2_restart_retry_contract ⟨"restart", 2, 5⟩ 2
      (fun _ => some (GoError.mk "always"))
      rfl rfl (by decide)).2.2 (by decide)

/-- C1: the dispatch loop of `Systemd.Start` returns nil (after running the
shutdown wait) as soon as the governing context is done; an error from the
shared channel that is not a wrapped cancellation is returned immediately
(without the shutdown wait); a wrapped-cancellation error is filtered out
and the loop continues; whatever error the loop returns is never
cancellation-derived; and a non-cancellation error arriving before any
cancellation signal is never swallowed — the loop returns a
non-cancellation error. -/
theorem c1_dispatch_loop_contract :
    (∀ evs, dispatchLoop (StartEvent.ctxDone :: evs) = some (true, none)) ∧
    (∀ e evs, e.isCanceled = false →
      dispatchLoop (StartEvent.taskErr e :: evs) = some (false, some e)) ∧
    (∀ e evs, e.isCanceled = true →
      dispatchLoop (StartEvent.taskErr e :: evs) = dispatchLoop evs) ∧
    (∀ evs w e, dispatchLoop evs = some (w, some e) → e.isCanceled = false) ∧
    (∀ evs, StartEvent.ctxDone ∉ evs →
      (∃ e, StartEvent.taskErr e ∈ evs ∧ e.isCanceled = false) →
      ∃ e, dispatchLoop evs = some (false, some e) ∧ e.isCanceled = false) := by
  refine ⟨?_, ?_, ?_, ?_, ?_⟩
  · intro evs
    rfl
  · intro e evs he
    simp [dispatchLoop, he]
  · intro e evs he
    simp [dispatchLoop, he]
  · intro evs
    induction evs with
    | nil =>
      intro w e h
      simp [dispatchLoop] at h
    | cons ev rest ih =>
      intro w e h
      cases ev with
      | ctxDone =>
        simp [dispatchLoop] at h
      | taskErr e2 =>
        cases hc : e2.isCanceled with
        | true =>
          rw [dispatchLoop, if_pos hc] at h
          exact ih w e h
        | false =>
          rw [dispatchLoop, if_neg (by simp [hc])] at h
          obtain ⟨-, he2⟩ := Prod.mk.injEq .. ▸ Option.some.injEq .. ▸ h
          cases Option.some.inj he2
          exact hc
  · intro evs
    induction evs with
    | nil =>
      intro _ hex
      rcases hex with ⟨e, he, -⟩
      simp at he
    | cons ev rest ih =>
      intro hno hex
      cases ev with
      | ctxDone =>
        exact absurd (List.mem_cons_self _ _) hno
      | taskErr e2 =>
        cases hc : e2.isCanceled with
        | true =>
          have hno2 : StartEvent.ctxDone ∉ rest := fun hmem =>
            hno (List.mem_cons_of_mem _ hmem)
          rcases hex with ⟨e, he, hce⟩
          have hmem : StartEvent.taskErr e ∈ rest := by
            rcases List.mem_cons.mp he with h1 | h2
            · injection h1 with h1e
              subst h1e
              rw [hc] at hce
              exact absurd hce (by simp)
            · exact h2
          obtain ⟨e3, h3, hc3⟩ := ih hno2 ⟨e, hmem, hce⟩
          refine ⟨e3, ?_, hc3⟩
          rw [dispatchLoop, if_pos hc]
          exact h3
        | false =>
          refine ⟨e2, ?_, hc⟩
          rw [dispatchLoop, if_neg (by simp [hc])]

/-- C1 witness: a wrapped cancellation followed by a real error — the
cancellation is filtered and the real error is returned without running the
shutdown wait; and a cancellation signal at the head makes the loop return
nil after the shutdown wait. -/
theorem c1_dispatch_loop_witness :
    dispatchLoop [StartEvent.taskErr (GoError.wrap "run" GoError.canceled),
        StartEvent.taskErr (GoError.mk "boom")] =
      some (false, some (GoError.mk "boom")) ∧
    dispatchLoop [StartEvent.ctxDone, StartEvent.taskErr (GoError.mk "boom")] =
      some (true, none) := by
  constructor
  · have hskip := c1_dispatch_loop_contract.2.2.1 (GoError.wrap "run" GoError.canceled)
      [StartEvent.taskErr (GoError.mk "boom")] (by decide)
    have hret := c1_dispatch_loop_contract.2.1 (GoError.mk "boom") [] (by decide)
    rw [hskip, hret]
  · exact c1_dispatch_loop_contract.1 [StartEvent.taskErr (GoError.mk "boom")]

/-- Equation for the inner pass when a swap fires. -/
theorem selectPass_cons_gt (x y : appItem) (ys : List appItem)
    (h : x.priority > y.priority) :
    selectPass x (y :: ys) = ((selectPass y ys).1, x :: (selectPass y ys).2) := by
  simp [selectPass, h]

/-- Equation for the inner pass when no swap fires. -/
theorem selectPass_cons_le (x y : appItem) (ys : List appItem)
    (h : ¬ x.priority > y.priority) :
    selectPass x (y :: ys) = ((selectPass x ys).1, y :: (selectPass x ys).2) := by
  simp [selectPass, h]

/-- The inner pass leaves the number of remaining elements unchanged. -/
theorem selectPass_length : ∀ (xs : List appItem) (x : appItem),
    (selectPass x xs).2.length = xs.length := by
  intro xs
  induction xs with
  | nil =>
    intro x
    rfl
  | cons y ys ih =>
    intro x
    by_cases h : x.priority > y.priority
    · rw [selectPass_cons_gt x y ys h]
      simp [ih y]
    · rw [selectPass_cons_le x y ys h]
      simp [ih x]

/-- The inner pass permutes its input: the selected element together with
the leftovers is a rearrangement of the original slice segment. -/
theorem selectPass_perm : ∀ (xs : List appItem) (x : appItem),
    List.Perm ((selectPass x xs).1 :: (selectPass x xs).2) (x :: xs) := by
  intro xs
  induction xs with
  | nil =>
    intro x
    exact List.Perm.refl _
  | cons y ys ih =>
    intro x
    by_cases h : x.priority > y.priority
    · rw [selectPass_cons_gt x y ys h]
      exact List.Perm.trans
        (List.Perm.swap x (selectPass y ys).1 (selectPass y ys).2)
        ((ih y).cons x)
    · rw [selectPass_cons_le x y ys h]
      exact List.Perm.trans
        (List.Perm.trans
          (List.Perm.swap y (selectPass x ys).1 (selectPass x ys).2)
          ((ih x).cons y))
        (List.Perm.swap x y ys)

/-- The element the inner pass leaves at position `i` has minimal priority
among the scanned segment. -/
theorem selectPass_min : ∀ (xs : List appItem) (x : appItem),
    (selectPass x xs).1.priority ≤ x.priority ∧
    ∀ a ∈ (selectPass x xs).2, (selectPass x xs).1.priority ≤ a.priority := by
  intro xs
  induction xs with
  | nil =>
    intro x
    refine ⟨le_refl _, ?_⟩
    intro a ha
    simp [selectPass] at ha
  | cons y ys ih =>
    intro x
    by_cases h : x.priority > y.priority
    · obtain ⟨h1, h2⟩ := ih y
      rw [selectPass_cons_gt x y ys h]
      refine ⟨le_of_lt (lt_of_le_of_lt h1 h), ?_⟩
      intro a ha
      rcases List.mem_cons.mp ha with rfl | ha2
      · exact le_of_lt (lt_of_le_of_lt h1 h)
      · exact h2 a ha2
    · obtain ⟨h1, h2⟩ := ih x
      have hxy : x.priority ≤ y.priority := not_lt.mp h
      rw [selectPass_cons_le x y ys h]
      refine ⟨h1, ?_⟩
      intro a ha
      rcases List.mem_cons.mp ha with rfl | ha2
      · exact h1.trans hxy
      · exact h2 a ha2

/-- The outer loop permutes the slice. -/
theorem sortPass_perm : ∀ (n : Nat) (l : List appItem), l.length = n →
    List.Perm (sortPass n l) l := by
  intro n
  induction n with
  | zero =>
    intro l hl
    rw [List.length_eq_zero] at hl
    subst hl
    exact List.Perm.refl _
  | succ m ih =>
    intro l hl
    cases l with
    | nil => simp at hl
    | cons x xs =>
      simp only [sortPass]
      have hlen : (selectPass x xs).2.length = m := by
        rw [selectPass_length]
        simpa using hl
      exact List.Perm.trans ((ih _ hlen).cons _) (selectPass_perm xs x)

/-- The outer loop leaves the slice sorted ascending by priority. -/
theorem sortPass_sorted : ∀ (n : Nat) (l : List appItem), l.length = n →
    List.Sorted (fun a b : appItem => a.priority ≤ b.priority) (sortPass n l) := by
  intro n
  induction n with
  | zero =>
    intro l hl
    rw [List.length_eq_zero] at hl
    subst hl
    simp [sortPass]
  | succ m ih =>
    intro l hl
    cases l with
    | nil => simp at hl
    | cons x xs =>
      simp only [sortPass]
      rw [List.sorted_cons]
      have hlen : (selectPass x xs).2.length = m := by
        rw [selectPass_length]
        simpa using hl
      refine ⟨?_, ih _ hlen⟩
      intro b hb
      have hbmem : b ∈ (selectPass x xs).2 := (sortPass_perm m _ hlen).mem_iff.mp hb
      exact (selectPass_min xs x).2 b hbmem

/-- C7: the start list `Systemd.Start` builds is a permutation of the
registered entries and is sorted ascending by priority — every entry with a
smaller priority number precedes every entry with a larger one in spawn
order. -/
theorem c7_start_list_sorted_permutation (s : Systemd) :
    List.Perm (startList s) s.apps ∧
    List.Sorted (fun a b : appItem => a.priority ≤ b.priority) (startList s) := by
  unfold startList sortByPriority
  exact ⟨sortPass_perm _ _ rfl, sortPass_sorted _ _ rfl⟩

/-- Tick equation: healthy app — kept, nothing else happens. -/
theorem runTick_cons_ok (probe : String → Option GoError) (app : appItem)
    (rest : List appItem) (hp : probe app.name = none) :
    runTick probe (app :: rest) =
      ⟨app :: (runTick probe rest).apps, (runTick probe rest).wgDelta,
       (runTick probe rest).restarted, (runTick probe rest).removed⟩ := by
  simp [runTick, hp]

/-- Tick equation: failing probe under the restart pointer — respawned with
a fresh `wg.Add(1)`, entry kept. -/
theorem runTick_cons_restart (probe : String → Option GoError) (app : appItem)
    (rest : List appItem) (e : GoError) (hp : probe app.name = some e)
    (h1 : app.onFailure = restartRef) :
    runTick probe (app :: rest) =
      ⟨app :: (runTick probe rest).apps, (runTick probe rest).wgDelta + 1,
       app.name :: (runTick probe rest).restarted, (runTick probe rest).removed⟩ := by
  simp [runTick, hp, h1]

/-- Tick equation: failing probe under the ignore pointer — entry deleted
and one unit retired from the counter. -/
theorem runTick_cons_ignore (probe : String → Option GoError) (app : appItem)
    (rest : List appItem) (e : GoError) (hp : probe app.name = some e)
    (h1 : app.onFailure ≠ restartRef) (h2 : app.onFailure = ignoreRef) :
    runTick probe (app :: rest) =
      ⟨(runTick probe rest).apps, (runTick probe rest).wgDelta - 1,
       (runTick probe rest).restarted, app.name :: (runTick probe rest).removed⟩ := by
  simp [runTick, hp, h1, h2]
  decide

/-- Tick equation: failing probe under any other policy pointer — the
switch matches neither case and nothing happens. -/
theorem runTick_cons_other (probe : String → Option GoError) (app : appItem)
    (rest : List appItem) (e : GoError) (hp : probe app.name = some e)
    (h1 : app.onFailure ≠ restartRef) (h2 : app.onFailure ≠ ignoreRef) :
    runTick probe (app :: rest) =
      ⟨app :: (runTick probe rest).apps, (runTick probe rest).wgDelta,
       (runTick probe rest).restarted, (runTick probe rest).removed⟩ := by
  simp [runTick, hp, h1, h2]

/-- A tick never adds registry entries: survivors were already registered. -/
theorem runTick_apps_subset (probe : String → Option GoError) :
    ∀ (l : List appItem) (a : appItem), a ∈ (runTick probe l).apps → a ∈ l := by
  intro l
  induction l with
  | nil =>
    intro a ha
    simp [runTick] at ha
  | cons b rest ih =>
    intro a ha
    cases hp : probe b.name with
    | none =>
      rw [runTick_cons_ok probe b rest hp] at ha
      rcases List.mem_cons.mp ha with rfl | h2
      · exact List.mem_cons_self _ _
      · exact List.mem_cons_of_mem _ (ih a h2)
    | some e =>
      by_cases h1 : b.onFailure = restartRef
      · rw [runTick_cons_restart probe b rest e hp h1] at ha
        rcases List.mem_cons.mp ha with rfl | h2
        · exact List.mem_cons_self _ _
        · exact List.mem_cons_of_mem _ (ih a h2)
      · by_cases h2i : b.onFailure = ignoreRef
        · rw [runTick_cons_ignore probe b rest e hp h1 h2i] at ha
          exact List.mem_cons_of_mem _ (ih a ha)
        · rw [runTick_cons_other probe b rest e hp h1 h2i] at ha
          rcases List.mem_cons.mp ha with rfl | h2
          · exact List.mem_cons_self _ _
          · exact List.mem_cons_of_mem _ (ih a h2)

/-- Name-level corollary: a name present after a tick was present before. -/
theorem runTick_names_subset (probe : String → Option GoError)
    (l : List appItem) (n : String)
    (hn : n ∈ (runTick probe l).apps.map appItem.name) :
    n ∈ l.map appItem.name := by
  rcases List.mem_map.mp hn with ⟨a, ha, rfl⟩
  exact List.mem_map_of_mem _ (runTick_apps_subset probe l a ha)

/-- Every name the Ignore branch deletes was a registered name. -/
theorem runTick_removed_subset (probe : String → Option GoError) :
    ∀ (l : List appItem) (n : String),
    n ∈ (runTick probe l).removed → n ∈ l.map appItem.name := by
  intro l
  induction l with
  | nil =>
    intro n hn
    simp [runTick] at hn
  | cons b rest ih =>
    intro n hn
    cases hp : probe b.name with
    | none =>
      rw [runTick_cons_ok probe b rest hp] at hn
      exact List.mem_cons_of_mem _ (ih n hn)
    | some e =>
      by_cases h1 : b.onFailure = restartRef
      · rw [runTick_cons_restart probe b rest e hp h1] at hn
        exact List.mem_cons_of_mem _ (ih n hn)
      · by_cases h2i : b.onFailure = ignoreRef
        · rw [runTick_cons_ignore probe b rest e hp h1 h2i] at hn
          rcases List.mem_cons.mp hn with rfl | h2
          · exact List.mem_cons_self _ _
          · exact List.mem_cons_of_mem _ (ih n h2)
        · rw [runTick_cons_other probe b rest e hp h1 h2i] at hn
          exact List.mem_cons_of_mem _ (ih n hn)

/-- Core removal fact: when a registered app's probe fails and its policy
pointer is the global ignore pointer, the tick deletes its entry (its name
survives nowhere in the registry, given unique names) and records exactly
one `wg.Add(-1)` removal for it. -/
theorem runTick_removes_ignored (probe : String → Option GoError) :
    ∀ (l : List appItem) (app : appItem) (e : GoError),
    app ∈ l → (l.map appItem.name).Nodup → probe app.name = some e →
    app.onFailure = ignoreRef →
    app.name ∉ (runTick probe l).apps.map appItem.name ∧
    (runTick probe l).removed.count app.name = 1 := by
  intro l
  induction l with
  | nil =>
    intro app e hmem
    simp at hmem
  | cons b rest ih =>
    intro app e hmem hnd hp hpol
    rw [List.map_cons] at hnd
    have hnd1 : b.name ∉ rest.map appItem.name := (List.nodup_cons.mp hnd).1
    have hnd2 : (rest.map appItem.name).Nodup := (List.nodup_cons.mp hnd).2
    rcases List.mem_cons.mp hmem with rfl | hmem2
    · have h1 : app.onFailure ≠ restartRef := by
        rw [hpol]
        decide
      rw [runTick_cons_ignore probe app rest e hp h1 hpol]
      constructor
      · intro hin
        exact hnd1 (runTick_names_subset probe rest app.name hin)
      · have hz : (runTick probe rest).removed.count app.name = 0 := by
          rw [List.count_eq_zero]
          intro hin
          exact hnd1 (runTick_removed_subset probe rest app.name hin)
        simp [List.count_cons_self, hz]
    · have hbne : b.name ≠ app.name := by
        intro heq
        exact hnd1 (heq ▸ List.mem_map_of_mem _ hmem2)
      obtain ⟨ha, hc⟩ := ih app e hmem2 hnd2 hp hpol
      have hkeep : app.name ∉ (b :: (runTick probe rest).apps).map appItem.name := by
        rw [List.map_cons]
        intro hin
        rcases List.mem_cons.mp hin with h | h
        · exact hbne h.symm
        · exact ha h
      cases hpb : probe b.name with
      | none =>
        rw [runTick_cons_ok probe b rest hpb]
        exact ⟨hkeep, hc⟩
      | some eb =>
        by_cases hb1 : b.onFailure = restartRef
        · rw [runTick_cons_restart probe b rest eb hpb hb1]
          exact ⟨hkeep, hc⟩
        · by_cases hb2 : b.onFailure = ignoreRef
          · rw [runTick_cons_ignore probe b rest eb hpb hb1 hb2]
            refine ⟨?_, ?_⟩
            · intro hin
              exact ha hin
            · rw [List.count_cons_of_ne (fun hx => hbne hx.symm)]
              exact hc
          · rw [runTick_cons_other probe b rest eb hpb hb1 hb2]
            exact ⟨hkeep, hc⟩

/-- Counter accounting of one tick: the net wait-group delta equals the
number of restart spawns minus the number of ignore removals. -/
theorem runTick_delta (probe : String → Option GoError) :
    ∀ (l : List appItem),
    (runTick probe l).wgDelta =
      ((runTick probe l).restarted.length : Int) -
        ((runTick probe l).removed.length : Int) := by
  intro l
  induction l with
  | nil => simp [runTick]
  | cons b rest ih =>
    cases hpb : probe b.name with
    | none =>
      rw [runTick_cons_ok probe b rest hpb]
      exact ih
    | some eb =>
      by_cases hb1 : b.onFailure = restartRef
      · rw [runTick_cons_restart probe b rest eb hpb hb1]
        simp only [List.length_cons]
        push_cast
        omega
      · by_cases hb2 : b.onFailure = ignoreRef
        · rw [runTick_cons_ignore probe b rest eb hpb hb1 hb2]
          simp only [List.length_cons]
          push_cast
          omega
        · rw [runTick_cons_other probe b rest eb hpb hb1 hb2]
          exact ih

/-- An app absent from the registry is never probed again, however the
watch loop continues: ticks only shrink the registry. -/
theorem probedInRun_not_registered :
    ∀ (sigs : List WatchSignal) (st : WatchState) (x : String),
    x ∉ st.apps.map appItem.name → probedInRun st sigs x = false := by
  intro sigs
  induction sigs with
  | nil =>
    intro st x hx
    rfl
  | cons sig rest ih =>
    intro st x hx
    cases sig with
    | ctxDone =>
      simp only [probedInRun, Bool.false_or]
      apply ih
      simpa [watchStep] using hx
    | tick probe =>
      have hc : (st.apps.map appItem.name).contains x = false := by
        simpa using hx
      simp only [probedInRun, hc, Bool.false_or]
      apply ih
      intro hmem
      exact hx (runTick_names_subset probe st.apps x (by simpa [watchStep] using hmem))

/-- C6: when a registered app's health probe fails during a watch tick and
its failure policy pointer is the global Ignore policy, the tick removes
the app's entry from the registry (given the registry's unique-name
invariant); exactly one removal unit is recorded for it, and the tick's net
wait-group change is the number of restart spawns minus the number of
removals — so this app retires exactly one unit from the in-flight
counter; and on every subsequent run of the watch loop the app is never
probed again. -/
theorem c6_ignore_removes_app_permanently (st : WatchState) (app : appItem)
    (probe : String → Option GoError) (e : GoError)
    (hmem : app ∈ st.apps) (hnd : (st.apps.map appItem.name).Nodup)
    (hp : probe app.name = some e) (hpol : app.onFailure = ignoreRef) :
    (app.name ∉ (watchStep st (WatchSignal.tick probe)).apps.map appItem.name) ∧
    ((runTick probe st.apps).removed.count app.name = 1) ∧
    ((watchStep st (WatchSignal.tick probe)).wgDelta =
      st.wgDelta + ((runTick probe st.apps).restarted.length : Int) -
        ((runTick probe st.apps).removed.length : Int)) ∧
    (∀ sigs, probedInRun (watchStep st (WatchSignal.tick probe)) sigs app.name = false) := by
  obtain ⟨hrem, hcount⟩ :=
    runTick_removes_ignored probe st.apps app e hmem hnd hp hpol
  refine ⟨by simpa [watchStep] using hrem, hcount, ?_, ?_⟩
  · simp only [watchStep]
    rw [runTick_delta probe st.apps]
    ring
  · intro sigs
    apply probedInRun_not_registered
    simpa [watchStep] using hrem

/-- C6 witness: a one-app registry under the Ignore pointer whose probe
fails; after the tick its name is gone from the registry, exactly one
removal is recorded, the counter dropped by one, and two further loop
iterations (another tick, then a cancellation wake-up) never probe it. -/
theorem c6_ignore_removes_witness :
    (("b" : String) ∉ (watchStep ⟨[⟨1, "b", ignoreRef, 0⟩], 5, 0⟩
      (WatchSignal.tick (fun n => if n == "b" then some (GoError.mk "down") else none))).apps.map
        appItem.name) ∧
    ((runTick (fun n => if n == "b" then some (GoError.mk "down") else none)
      [⟨1, "b", ignoreRef, 0⟩]).removed.count "b" = 1) ∧
    ((watchStep ⟨[⟨1, "b", ignoreRef, 0⟩], 5, 0⟩
      (WatchSignal.tick (fun n => if n == "b" then some (GoError.mk "down") else none))).wgDelta =
      5 + ((runTick (fun n => if n == "b" then some (GoError.mk "down") else none)
        [⟨1, "b", ignoreRef, 0⟩]).restarted.length : Int) -
        ((runTick (fun n => if n == "b" then some (GoError.mk "down") else none)
          [⟨1, "b", ignoreRef, 0⟩]).removed.length : Int)) ∧
    (probedInRun (watchStep ⟨[⟨1, "b", ignoreRef, 0⟩], 5, 0⟩
        (WatchSignal.tick (fun n => if n == "b" then some (GoError.mk "down") else none)))
      [WatchSignal.tick (fun n => if n == "b" then some (GoError.mk "down") else none),
       WatchSignal.ctxDone] "b" = false) := by
  have h6 := c6_ignore_removes_app_permanently
    ⟨[⟨1, "b", ignoreRef, 0⟩], 5, 0⟩ ⟨1, "b", ignoreRef, 0⟩
    (fun n => if n == "b" then some (GoError.mk "down") else none) (GoError.mk "down")
    (by decide) (by decide) (by decide) (by decide)
  exact ⟨h6.1, h6.2.1, h6.2.2.1, h6.2.2.2
    [WatchSignal.tick (fun n => if n == "b" then some (GoError.mk "down") else none),
     WatchSignal.ctxDone]⟩
